import Mathlib

/-!
Verification of the MIPLearn feature-store and feature-extraction core
(`miplearn/features.py`, `miplearn/features/sample.py`) against its
natural-language specification.

The Python code is shallowly embedded: Python floats are modelled by an
inductive type `PyFloat` (a finite rational, the two infinities, or NaN,
with IEEE comparison semantics: every comparison involving NaN is false);
Python ints are modelled by `Int`; heterogeneous Python scalars by
`PyScalar`; dictionaries by association lists; fallible code (assertions,
numpy conversion errors) by `Except String`.
-/

namespace MIPLearn

/-- Decidable equality for `Except`, used to evaluate the embedded
fallible operations on concrete inputs. -/
instance {e a : Type} [DecidableEq e] [DecidableEq a] :
    DecidableEq (Except e a) := fun x y =>
  match x, y with
  | .error u, .error v =>
      if h : u = v then isTrue (by rw [h])
      else isFalse (fun hh => h (by injection hh))
  | .ok u, .ok v =>
      if h : u = v then isTrue (by rw [h])
      else isFalse (fun hh => h (by injection hh))
  | .error _, .ok _ => isFalse (fun hh => by injection hh)
  | .ok _, .error _ => isFalse (fun hh => by injection hh)

/-- Model of a Python float: a finite value (the exact rational the float
denotes), positive/negative infinity, or NaN. -/
inductive PyFloat where
  | finite (q : ℚ)
  | posInf
  | negInf
  | nan
deriving DecidableEq, Repr

/-- `math.isfinite`. -/
def PyFloat.isfinite : PyFloat → Bool
  | .finite _ => true
  | _ => false

/-- IEEE-754 `<` on Python floats: any comparison involving NaN is false. -/
def PyFloat.ltb : PyFloat → PyFloat → Bool
  | .finite p, .finite q => decide (p < q)
  | .finite _, .posInf => true
  | .negInf, .finite _ => true
  | .negInf, .posInf => true
  | _, _ => false

/-- Python `min(a, b)`: returns `a` unless `b < a`.  In particular
`min(nan, x) = nan` and `min(x, nan) = x`. -/
def pymin (a b : PyFloat) : PyFloat := if PyFloat.ltb b a then b else a

/-- Python `max(a, b)`: returns `a` unless `a < b`.  In particular
`max(nan, x) = nan` and `max(x, nan) = x`. -/
def pymax (a b : PyFloat) : PyFloat := if PyFloat.ltb a b then b else a

/-- The clamp constant `1e20` (exactly representable as a binary double). -/
def clipBound : ℚ := 10 ^ 20

/-- `features._clipf`: returns `max(min(vi, 1e20), -1e20)` when `vi` is not
finite, and `vi` unchanged otherwise. -/
def _clipf (vi : PyFloat) : PyFloat :=
  if !vi.isfinite then pymax (pymin vi (.finite clipBound)) (.finite (-clipBound))
  else vi

/-- `features._clip`: the in-place loop replacing each non-finite element
`vi` by `max(min(vi, 1e20), -1e20)`, modelled as returning the updated
list. -/
def _clip (v : List PyFloat) : List PyFloat :=
  v.map fun vi =>
    if !vi.isfinite then pymax (pymin vi (.finite clipBound)) (.finite (-clipBound))
    else vi

/-- Model of a Python scalar as accepted by the stores: `None`, a bool, an
int, a float, or a text string. -/
inductive PyScalar where
  | none
  | bool (b : Bool)
  | int (n : ℤ)
  | float (x : PyFloat)
  | str (s : String)
deriving DecidableEq, Repr

/-- Model of a numpy ndarray: a dtype kind character (as in
`numpy.dtype.kind`: `'b'` bool, `'i'`/`'u'` integer, `'f'` float, `'S'`
fixed-width bytes), a shape, and the flattened data. -/
structure NpArray where
  kind : Char
  shape : List ℕ
  data : List PyScalar
deriving DecidableEq, Repr

/-- `Sample._assert_supported`: dtype kind must be one of `"biufS"`. -/
def supportedKind (k : Char) : Bool :=
  k = 'b' || k = 'i' || k = 'u' || k = 'f' || k = 'S'

/-- Model of a `scipy.sparse.coo_matrix`: parallel row/column index arrays,
the data array, and the matrix shape. -/
structure CooMatrix where
  row : List ℕ
  col : List ℕ
  data : NpArray
  shape : ℕ × ℕ
deriving DecidableEq, Repr

/-- A value held by a `MemorySample` under one key (the Python dict is
untyped; a key holds exactly one of these). -/
inductive MemVal where
  | scalar (v : PyScalar)
  | vector (v : List PyScalar)
  | array (a : NpArray)
  | sparse (m : CooMatrix)
deriving DecidableEq, Repr

/-- Association-list lookup, modelling `key in dict` / `dict[key]`. -/
def alookup {α : Type} : List (String × α) → String → Option α
  | [], _ => Option.none
  | (k', v) :: rest, k => if k' = k then some v else alookup rest k

/-- Association-list update, modelling `dict[key] = value` (and the HDF5
`del file[key]` followed by `create_dataset`): the new binding shadows
any earlier one; the store is only ever read through `alookup`, for
which this is exactly replacement. -/
def aupdate {α : Type} (st : List (String × α)) (k : String) (v : α) :
    List (String × α) :=
  (k, v) :: st

namespace MemorySample

/-- The backing dictionary of a `MemorySample`. -/
abbrev Store := List (String × MemVal)

/-- `MemorySample.put_scalar`: `None` is a no-op; otherwise the value is
stored (the scalar assertion never fails on the modelled value space). -/
def put_scalar (st : Store) (k : String) (v : PyScalar) : Store :=
  match v with
  | .none => st
  | _ => aupdate st k (.scalar v)

/-- `MemorySample.put_vector`: `None` is a no-op; otherwise the list is
stored unchanged (no coercion). -/
def put_vector (st : Store) (k : String) (v : Option (List PyScalar)) : Store :=
  match v with
  | Option.none => st
  | some l => aupdate st k (.vector l)

/-- `MemorySample.put_array`: `None` is a no-op; the dtype-kind assertion
fails for unsupported dtypes; otherwise the array is stored unchanged. -/
def put_array (st : Store) (k : String) (v : Option NpArray) :
    Except String Store :=
  match v with
  | Option.none => .ok st
  | some a =>
      if supportedKind a.kind then .ok (aupdate st k (.array a))
      else .error "Unsupported dtype"

/-- `MemorySample.put_sparse`: `None` is a no-op; the data dtype must be
supported; otherwise the matrix object is stored unchanged. -/
def put_sparse (st : Store) (k : String) (v : Option CooMatrix) :
    Except String Store :=
  match v with
  | Option.none => .ok st
  | some m =>
      if supportedKind m.data.kind then .ok (aupdate st k (.sparse m))
      else .error "Unsupported dtype"

/-- `MemorySample._get` (shared by all four getters): the stored value, or
`None` for an absent key.  No type check is performed on reads. -/
def _get (st : Store) (k : String) : Option MemVal := alookup st k

/-- `MemorySample.get_scalar` = `self._get(key)`. -/
def get_scalar (st : Store) (k : String) : Option MemVal := _get st k

/-- `MemorySample.get_vector` = `self._get(key)`. -/
def get_vector (st : Store) (k : String) : Option MemVal := _get st k

/-- `MemorySample.get_array` = `self._get(key)`. -/
def get_array (st : Store) (k : String) : Option MemVal := _get st k

/-- `MemorySample.get_sparse` = `self._get(key)`. -/
def get_sparse (st : Store) (k : String) : Option MemVal := _get st k

end MemorySample

/-- Is the scalar a `str` or `None`?  (The first test applied to each
element by the coercion loop of `Hdf5Sample.put_vector`.) -/
def isTextOrNone : PyScalar → Bool
  | .str _ => true
  | .none => true
  | _ => false

/-- Is the scalar a Python `float`?  (`isinstance(v, float)`; note that
Python bools and ints are not floats.) -/
def isFloatScalar : PyScalar → Bool
  | .float _ => true
  | _ => false

/-- Is the scalar a Python `int` (excluding `bool`, which numpy promotes
separately)? -/
def isIntScalar : PyScalar → Bool
  | .int _ => true
  | _ => false

/-- The coercion decision loop of `Hdf5Sample.put_vector`: scan the
elements in order; at the first element that is text or `None` choose the
byte-string encoding (`some true`); at the first element that is a float
choose the half-precision encoding (`some false`); if no element matches,
store as-is (`none`). -/
def coerceScan : List PyScalar → Option Bool
  | [] => Option.none
  | v :: rest =>
      if isTextOrNone v then some true
      else if isFloatScalar v then some false
      else coerceScan rest

/-- Element conversion performed by `np.array(value, dtype="f2")` before
rounding: ints and bools convert exactly, `None` raises `TypeError`, and a
string raises `ValueError` (numpy would parse a numeric literal string,
but in every development below a string in the float path occurs only
alongside a `None`, on which numpy fails as well). -/
def floatOfScalar : PyScalar → Except String PyFloat
  | .float x => .ok x
  | .int n => .ok (.finite (n : ℚ))
  | .bool b => .ok (.finite (if b then 1 else 0))
  | .none => .error "float() argument must be a string or a number, not NoneType"
  | .str _ => .error "could not convert string to float"

/-- Digits of the fractional part of `q ∈ [0,1)`, with fuel: models the
decimal expansion used by `str()` for short dyadic rationals. -/
def decimalDigits : ℕ → ℚ → String
  | 0, _ => ""
  | (fuel + 1), q =>
      if q = 0 then ""
      else
        let p := q * 10
        let d : ℤ := p.num / (p.den : ℤ)
        toString d ++ decimalDigits fuel (p - (d : ℚ))

/-- Textual form of a Python float, as produced by `str()`: models the
shortest-repr for floats whose exact value has a short decimal
expansion (only such values reach the byte-string path below). -/
def floatStr : PyFloat → String
  | .posInf => "inf"
  | .negInf => "-inf"
  | .nan => "nan"
  | .finite q =>
      let sign := if q < 0 then "-" else ""
      let a := if q < 0 then -q else q
      let ip : ℤ := a.num / (a.den : ℤ)
      let ds := decimalDigits 64 (a - (ip : ℚ))
      sign ++ toString ip ++ "." ++ (if ds = "" then "0" else ds)

/-- The per-element conversion of
`np.array([u if u is not None else b"" for u in value], dtype="S")`:
`None` becomes the empty string, a string stays itself, and other scalars
are converted through `str()`. -/
def bytesOfScalar : PyScalar → String
  | .str s => s
  | .none => ""
  | .int n => toString n
  | .bool b => if b then "True" else "False"
  | .float x => floatStr x

/-- numpy conversion applied when a plain bool/int list is handed to
`create_dataset`: if any element is an int, bools are promoted to the
ints `0`/`1` (dtype int64); an all-bool list keeps dtype bool. -/
def rawEncode (vs : List PyScalar) : List PyScalar :=
  if vs.any isIntScalar then
    vs.map fun v =>
      match v with
      | .bool b => .int (if b then 1 else 0)
      | x => x
  else vs

/-- A dataset stored in the HDF5 file under one key: a 0-dimensional
scalar, a fixed-width byte-string vector, a half-precision float vector
(kept here before rounding; rounding is applied on read by the `f2`
parameter of the getters), a bool/int vector stored as-is, or an array
written by `put_array`. -/
inductive HObj where
  | hscalar (v : PyScalar)
  | hbytes (ss : List String)
  | hf2 (xs : List PyFloat)
  | hraw (vs : List PyScalar)
  | harr (a : NpArray)
deriving DecidableEq, Repr

/-- Elementwise conversion of the whole list by
`np.array(value, dtype="f2")`: the first inconvertible element raises. -/
def floatsOf : List PyScalar → Except String (List PyFloat)
  | [] => .ok []
  | v :: rest => do
      let x ← floatOfScalar v
      let xs ← floatsOf rest
      .ok (x :: xs)

/-- The whole coercion step of `Hdf5Sample.put_vector`: byte-string
re-encoding when the scan chooses text, half-precision conversion when it
chooses float (failing on inconvertible elements), as-is otherwise. -/
def coerceVector (value : List PyScalar) : Except String HObj :=
  match coerceScan value with
  | some true => .ok (.hbytes (value.map bytesOfScalar))
  | some false => (floatsOf value).map HObj.hf2
  | Option.none => .ok (.hraw (rawEncode value))

/-- Reading one fixed-width string back: an empty string is reported as
`None` (round-trip of the null sentinel). -/
def sentinelDecode (s : String) : PyScalar :=
  if s = "" then .none else .str s

namespace Hdf5Sample

/-- The contents of the backing HDF5 file, keyed by dataset name. -/
abbrev Store := List (String × HObj)

/-- `Hdf5Sample.put_scalar`: `None` is a no-op; otherwise the scalar is
stored as a 0-dimensional dataset (no coercion). -/
def put_scalar (st : Store) (k : String) (v : PyScalar) : Store :=
  match v with
  | .none => st
  | _ => aupdate st k (.hscalar v)

/-- `Hdf5Sample.put_vector`: `None` is a no-op; otherwise the coerced
vector replaces any existing dataset under the key. -/
def put_vector (st : Store) (k : String) (v : Option (List PyScalar)) :
    Except String Store :=
  match v with
  | Option.none => .ok st
  | some l => (coerceVector l).map (aupdate st k)

/-- `Hdf5Sample.put_array`: `None` is a no-op; the dtype must be
supported; the array replaces any existing dataset (delete + create). -/
def put_array (st : Store) (k : String) (v : Option NpArray) :
    Except String Store :=
  match v with
  | Option.none => .ok st
  | some a =>
      if supportedKind a.kind then .ok (aupdate st k (.harr a))
      else .error "Unsupported dtype"

/-- The int64 index array `value.row` / `value.col` of a coo_matrix. -/
def intIndexArray (ns : List ℕ) : NpArray :=
  ⟨'i', [ns.length], ns.map fun n => .int (Int.ofNat n)⟩

/-- `Hdf5Sample.put_sparse`: `None` is a no-op; the data dtype must be
supported; the three sibling arrays `K_row`, `K_col`, `K_data` are
written (the matrix shape is not stored). -/
def put_sparse (st : Store) (k : String) (v : Option CooMatrix) :
    Except String Store :=
  match v with
  | Option.none => .ok st
  | some m =>
      if supportedKind m.data.kind then do
        let st1 ← put_array st (k ++ "_row") (some (intIndexArray m.row))
        let st2 ← put_array st1 (k ++ "_col") (some (intIndexArray m.col))
        put_array st2 (k ++ "_data") (some m.data)
      else .error "Unsupported dtype"

/-- `Hdf5Sample.get_scalar`: `None` for an absent key; an assertion error
unless the stored dataset is 0-dimensional; otherwise the scalar. -/
def get_scalar (st : Store) (k : String) : Except String (Option PyScalar) :=
  match alookup st k with
  | Option.none => .ok Option.none
  | some (.hscalar v) => .ok (some v)
  | some (.harr a) =>
      if a.shape.length = 0 then .ok a.data.head?
      else .error "0-dimensional array expected"
  | some _ => .error "0-dimensional array expected"

/-- `Hdf5Sample.get_vector`: `None` for an absent key; an assertion error
unless the dataset is 1-dimensional; string datasets are decoded with the
empty-string-to-null sentinel; float datasets yield the half-precision
values (`f2` is the half-precision rounding applied by the file). -/
def get_vector (f2 : PyFloat → PyFloat) (st : Store) (k : String) :
    Except String (Option (List PyScalar)) :=
  match alookup st k with
  | Option.none => .ok Option.none
  | some (.hbytes ss) => .ok (some (ss.map sentinelDecode))
  | some (.hf2 xs) => .ok (some (xs.map fun x => .float (f2 x)))
  | some (.hraw vs) => .ok (some vs)
  | some (.harr a) =>
      if a.shape.length = 1 then
        if a.kind = 'S' then
          .ok (some (a.data.map fun v =>
            match v with
            | .str s => sentinelDecode s
            | x => x))
        else .ok (some a.data)
      else .error "1-dimensional array expected"
  | some (.hscalar _) => .error "1-dimensional array expected"

/-- `Hdf5Sample.get_array`: `None` for an absent key; otherwise the full
dataset contents as an array (reading a 0-dimensional dataset with `[:]`
raises). -/
def get_array (f2 : PyFloat → PyFloat) (st : Store) (k : String) :
    Except String (Option NpArray) :=
  match alookup st k with
  | Option.none => .ok Option.none
  | some (.harr a) => .ok (some a)
  | some (.hbytes ss) => .ok (some ⟨'S', [ss.length], ss.map .str⟩)
  | some (.hf2 xs) => .ok (some ⟨'f', [xs.length], xs.map fun x => .float (f2 x)⟩)
  | some (.hraw vs) =>
      .ok (some ⟨if vs.any isIntScalar then 'i'
                 else if vs.isEmpty then 'f' else 'b', [vs.length], vs⟩)
  | some (.hscalar _) => .error "Illegal slicing argument for scalar dataspace"

/-- Index coercion performed by `coo_matrix` on one index array's
elements: entries must be non-negative integers. -/
def natsOf : List PyScalar → Except String (List ℕ)
  | [] => .ok []
  | v :: rest =>
      match v with
      | .int n =>
          if n < 0 then .error "negative index found"
          else do
            let ns ← natsOf rest
            .ok (n.toNat :: ns)
      | _ => .error "invalid index dtype"

/-- Index coercion performed by `coo_matrix` on the row/column arrays. -/
def natsOfArray (a : NpArray) : Except String (List ℕ) :=
  natsOf a.data

/-- `Hdf5Sample.get_sparse`: `None` when the row array is absent; asserts
that the col and data arrays are present; reconstructs
`coo_matrix((data, (row, col)))`, whose shape is inferred as
`(max(row)+1, max(col)+1)` and which fails on empty index arrays. -/
def get_sparse (f2 : PyFloat → PyFloat) (st : Store) (k : String) :
    Except String (Option CooMatrix) := do
  let orow ← get_array f2 st (k ++ "_row")
  match orow with
  | Option.none => .ok Option.none
  | some rowA => do
      let ocol ← get_array f2 st (k ++ "_col")
      let odata ← get_array f2 st (k ++ "_data")
      match ocol, odata with
      | some colA, some dataA => do
          let row ← natsOfArray rowA
          let col ← natsOfArray colA
          match row.max?, col.max? with
          | some mr, some mc => .ok (some ⟨row, col, dataA, (mr + 1, mc + 1)⟩)
          | _, _ => .error "unable to infer matrix dimensions"
      | _, _ => .error "assertion failed: col is not None"

end Hdf5Sample

/-- A value found at one entity position of a series handed to
`FeaturesExtractor._combine`: a numeric scalar or a list of numerics
(an absent entry is `Option.none` around this type). -/
inductive PyVal where
  | scalar (x : PyFloat)
  | vec (xs : List PyFloat)
deriving DecidableEq, Repr

/-- One per-entity series as read from the sample by `_combine`. -/
abbrev Series := List (Option PyVal)

/-- What one series entry contributes to its entity's output row:
nothing for `None`, the clipped elements for a list, the clipped scalar
otherwise. -/
def cellContrib : Option PyVal → List PyFloat
  | Option.none => []
  | some (.scalar x) => [_clipf x]
  | some (.vec xs) => xs.map _clipf

/-- One iteration of the outer loop of `_combine` for a present series:
if `combined` is empty it is first initialised with one empty row per
series entry; then row `i` is extended by the contribution of entry `i`.
The result is `none` when the Python loop would raise `IndexError`,
i.e. when some non-`None` entry lies beyond the current row count. -/
def combineStep (combined : List (List PyFloat)) (series : Series) :
    Option (List (List PyFloat)) :=
  let c := if combined.isEmpty then series.map (fun _ => ([] : List PyFloat))
           else combined
  if (series.drop c.length).all (fun s => s = Option.none) then
    some (c.mapIdx fun i row => row ++ cellContrib (series[i]?.getD Option.none))
  else Option.none

/-- The body of the outer loop of `_combine` for one attribute key: an
absent key (`sample.get(attr) is None`) is skipped; a present series is
merged by `combineStep`; an earlier `IndexError` propagates. -/
def combineF (g : String → Option Series)
    (acc : Option (List (List PyFloat))) (a : String) :
    Option (List (List PyFloat)) :=
  match acc with
  | Option.none => Option.none
  | some c =>
      match g a with
      | Option.none => some c
      | some series => combineStep c series

/-- `FeaturesExtractor._combine`: fold over the attribute keys in order,
starting from an empty `combined` list.  `g` is `sample.get`. -/
def _combine (g : String → Option Series) (attrs : List String) :
    Option (List (List PyFloat)) :=
  attrs.foldl (combineF g) (some [])

/-- The spec's description of the FeatureCombiner output over `n`
entities: row `i` is the concatenation, in the given key order, of the
contribution of entry `i` of each present series; an absent key, and a
null entry, contribute nothing.  (A spec-side definition, stated for
comparison with `_combine`.) -/
def specCombineRows (g : String → Option Series) (attrs : List String)
    (n : ℕ) : List (List PyFloat) :=
  (List.range n).map fun i =>
    attrs.flatMap fun a =>
      match g a with
      | Option.none => []
      | some s => cellContrib (s[i]?.getD Option.none)

/-- `InstanceFeatures.to_list`: the user features (or nothing when
absent), passed through `_clip`. -/
def instanceToList (user_features : Option (List PyFloat)) : List PyFloat :=
  _clip (match user_features with | Option.none => [] | some l => l)

/-- The three parallel lists built by
`FeaturesExtractor._extract_user_features_constrs` and written to the
sample as `constr_features_user`, `constr_categories`, `constr_lazy`. -/
structure ConstrAcc where
  user_features : List (Option (List ℚ))
  categories : List (Option PyScalar)
  lazy : List Bool
deriving DecidableEq, Repr

/-- One iteration of the loop of `_extract_user_features_constrs`:
`category` starts as the constraint name, is overridden by the category
dictionary when the name is a key there, and a `None` category appends
`None` placeholders to `user_features`/`categories` and `continue`s —
skipping the `lazy` append.  Otherwise the category (asserted hashable,
which always holds on the modelled value space), the optional feature
list, and the lazy flag are appended. -/
def constrStep (hasStaticLazy : Bool) (catDict : List (String × PyScalar))
    (featDict : List (String × List ℚ)) (isConstraintLazy : String → Bool)
    (acc : ConstrAcc) (cname : Option String) : ConstrAcc :=
  match cname with
  | Option.none =>
      { acc with
        user_features := acc.user_features ++ [Option.none]
        categories := acc.categories ++ [Option.none] }
  | some s =>
      let category : PyScalar :=
        match alookup catDict s with
        | some v => v
        | Option.none => .str s
      match category with
      | .none =>
          { acc with
            user_features := acc.user_features ++ [Option.none]
            categories := acc.categories ++ [Option.none] }
      | c =>
          { user_features := acc.user_features ++ [alookup featDict s]
            categories := acc.categories ++ [some c]
            lazy := acc.lazy ++
              [if hasStaticLazy then isConstraintLazy s else false] }

/-- `FeaturesExtractor._extract_user_features_constrs`: the loop over
`constr_names`, starting from three empty lists; the results are written
to the sample under `constr_features_user`, `constr_lazy`,
`constr_categories`. -/
def extractUserFeaturesConstrs (hasStaticLazy : Bool)
    (catDict : List (String × PyScalar)) (featDict : List (String × List ℚ))
    (isConstraintLazy : String → Bool) (constrNames : List (Option String)) :
    ConstrAcc :=
  constrNames.foldl (constrStep hasStaticLazy catDict featDict isConstraintLazy)
    ⟨[], [], []⟩

/-- `np.sign` on a (finite) float. -/
def npSign (q : ℚ) : ℚ := if 0 < q then 1 else if q < 0 then -1 else 0

/-- Division with the Python error on a zero divisor. -/
def checkedDiv (a b : ℚ) : Except String ℚ :=
  if b = 0 then .error "ZeroDivisionError" else .ok (a / b)

/-- `math.log` with its domain error; the value of the logarithm itself
is a parameter of the embedding (it is transcendental and never reached
in the scenarios proved below). -/
def checkedLog (log : ℚ → ℚ) (q : ℚ) : Except String ℚ :=
  if 0 < q then .ok (log q) else .error "math domain error"

/-- Features 47/48 of `_extract_var_features_AlvLouWeh2017`:
`log(num/csign)` when `csign != 0 and num/csign > 0.001`, else `0.0`.
The short-circuiting `and` guards the division by `csign`.  (The Python
literal `0.001` is modelled by the rational `1/1000`; no proved scenario
depends on the threshold.) -/
def gapFeature (log : ℚ → ℚ) (csign num : ℚ) : Except String ℚ :=
  if csign ≠ 0 then do
    let q ← checkedDiv num csign
    if 1 / 1000 < q then checkedLog log q else pure 0
  else pure 0

/-- One variable's row of `_extract_var_features_AlvLouWeh2017`:
sign of the objective coefficient; the two normalised magnitudes (0 when
the corresponding sum is not positive); the fractionality score when an
LP value is available; and, when sensitivity data is available, the
signs of the raw bounds followed by the two log-gap features computed
from the bounds clamped to ±1e20. -/
def alvarezRow (log : ℚ → ℚ) (posSum negSum obj : ℚ)
    (value : Option ℚ) (sa : Option (ℚ × ℚ)) : Except String (List ℚ) := do
  let f2 ← if 0 < posSum then checkedDiv |obj| posSum else pure 0
  let f3 ← if 0 < negSum then checkedDiv |obj| negSum else pure 0
  let frac : List ℚ :=
    match value with
    | Option.none => []
    | some x => [min (x - (⌊x⌋ : ℚ)) ((⌈x⌉ : ℚ) - x)]
  let saPart ←
    match sa with
    | Option.none => pure ([] : List ℚ)
    | some (d, u) => do
        let sd := max (-clipBound) d
        let su := min clipBound u
        let csign := npSign obj
        let g47 ← gapFeature log csign (obj - sd)
        let g48 ← gapFeature log csign (su - obj)
        pure [npSign u, npSign d, g47, g48]
  pure ([npSign obj, f2, f3] ++ frac ++ saPart)

/-- List indexing with the Python `IndexError`. -/
def listIdx {α : Type} (l : List α) (i : ℕ) : Except String α :=
  match l[i]? with
  | some x => .ok x
  | Option.none => .error "IndexError"

/-- `FeaturesExtractor._extract_var_features_AlvLouWeh2017`: compute the
positive/negative coefficient sums, then one feature row per variable;
sensitivity data requires both bounds to be present (assertion). -/
def alvarezFeatures (log : ℚ → ℚ) (objCoeffs : List ℚ)
    (values saDown saUp : Option (List ℚ)) : Except String (List (List ℚ)) := do
  let posSum := objCoeffs.foldl (fun acc c => if 0 < c then acc + c else acc) 0
  let negSum := objCoeffs.foldl (fun acc c => if c < 0 then acc + (-c) else acc) 0
  (List.range objCoeffs.length).mapM fun i => do
    let obj ← listIdx objCoeffs i
    let value ←
      match values with
      | Option.none => pure (Option.none : Option ℚ)
      | some vs => do
          let x ← listIdx vs i
          pure (some x)
    let sa ←
      match saUp, saDown with
      | Option.none, _ => pure (Option.none : Option (ℚ × ℚ))
      | some us, some ds => do
          let u ← listIdx us i
          let d ← listIdx ds i
          pure (some (d, u))
      | some _, Option.none =>
          Except.error "assertion failed: obj_sa_down is not None"
    alvarezRow log posSum negSum obj value sa

/-- An element of a ragged vector-list handled by the packer: integer,
real, or text. -/
inductive PackElem where
  | int (n : ℤ)
  | real (q : ℚ)
  | str (s : String)
deriving DecidableEq, Repr

/-- The fill constant of an element kind: `0`, `0.0`, or `""`. -/
def fillOf : PackElem → PackElem
  | .int _ => .int 0
  | .real _ => .real 0
  | .str _ => .str ""

/-- Modelled from the spec: §4.4 RaggedPacker step 2/3 (the packing code
is not under src/).  The fill constant is inferred from the first
non-empty, non-null entry's element kind; it is a hard error if every
entry is null or empty. -/
def inferFill : List (Option (List PackElem)) → Except String PackElem
  | [] => .error "unable to infer element kind"
  | Option.none :: rest => inferFill rest
  | some [] :: rest => inferFill rest
  | some (e :: _) :: _ => .ok (fillOf e)

/-- Modelled from the spec: §4.4 step 1 — each entry's length, or −1 for
a null entry. -/
def packLengths (V : List (Option (List PackElem))) : List ℤ :=
  V.map fun o =>
    match o with
    | Option.none => -1
    | some v => (v.length : ℤ)

/-- Modelled from the spec: §4.4 step 2 — the maximum over the
non-negative recorded lengths. -/
def packMaxLen (V : List (Option (List PackElem))) : ℕ :=
  V.foldl
    (fun m o =>
      match o with
      | Option.none => m
      | some v => max m v.length)
    0

/-- Modelled from the spec: §4.4 steps 4/5 — a null entry becomes a full
row of the fill constant; a present entry is right-padded to `maxlen`. -/
def padRow (m : ℕ) (fill : PackElem) : Option (List PackElem) → List PackElem
  | Option.none => List.replicate m fill
  | some v => v ++ List.replicate (m - v.length) fill

/-- Modelled from the spec: §4.4 RaggedPacker — the rectangular matrix of
padded rows plus the per-row length side-array. -/
def pack (V : List (Option (List PackElem))) :
    Except String (List (List PackElem) × List ℤ) := do
  let fill ← inferFill V
  .ok (V.map (padRow (packMaxLen V) fill), packLengths V)

/-- Modelled from the spec: §4.4 inverse (crop) — a negative stored
length yields null, otherwise the first `length[i]` elements of row `i`,
discarding padding. -/
def crop (rows : List (List PackElem)) (lengths : List ℤ) :
    List (Option (List PackElem)) :=
  List.zipWith
    (fun row l => if l < 0 then Option.none else some (row.take l.toNat))
    rows lengths

/-- A text-vector element as handed to `put_vector`: a string, or null. -/
def textEncode (o : Option String) : PyScalar :=
  match o with
  | some s => .str s
  | Option.none => .none

/-- The element returned by `get_vector` for a text-vector element: the
string itself, with the empty string (the stored form of null, and of an
originally empty string) reported as null. -/
def textDecode (o : Option String) : PyScalar :=
  match o with
  | some s => sentinelDecode s
  | Option.none => .none

/-- A scalar that is a text or null element, as tested first by the
coercion loop of `Hdf5Sample.put_vector`, or a float, tested second:
the first such element decides the whole vector's encoding. -/
def firstCoercible : List PyScalar → Option PyScalar
  | [] => Option.none
  | v :: rest =>
      if isTextOrNone v || isFloatScalar v then some v
      else firstCoercible rest

/- ———————————————————————— helper lemmas ———————————————————————— -/

theorem except_bind_ok {e a b : Type} (x : a) (f : a → Except e b) :
    (Except.ok x >>= f) = f x := rfl

theorem except_bind_error {e a b : Type} (u : e) (f : a → Except e b) :
    ((Except.error u : Except e a) >>= f) = Except.error u := rfl

theorem alookup_aupdate_self {α : Type} (st : List (String × α)) (k : String)
    (v : α) : alookup (aupdate st k v) k = some v := by
  simp [aupdate, alookup]

theorem alookup_aupdate_ne {α : Type} (st : List (String × α)) {k k' : String}
    (v : α) (h : k' ≠ k) : alookup (aupdate st k v) k' = alookup st k' := by
  have hk : k ≠ k' := fun hh => h hh.symm
  simp [aupdate, alookup, hk]

theorem append_right_ne (k : String) {a b : String} (h : a ≠ b) :
    k ++ a ≠ k ++ b := by
  intro he
  apply h
  have hd : k.data ++ a.data = k.data ++ b.data := by
    have h2 := congrArg String.data he
    simpa [String.data_append] using h2
  have hab : a.data = b.data := List.append_cancel_left hd
  cases a
  cases b
  exact congrArg String.mk hab

/- ———————————————————————— C1 ———————————————————————— -/

/-- C1, counterexample: the finite value `1e30` lies outside
`[-1e20, 1e20]` yet is appended unchanged by `_combine`, and `_clipf`
maps NaN to NaN (Python `max(min(nan, 1e20), -1e20)` is NaN), so values
outside the range are not always clamped. -/
theorem C1_counterexample :
    _combine (fun _ => some [some (.scalar (.finite (10 ^ 30)))]) ["k"]
      = some [[.finite (10 ^ 30)]]
    ∧ ¬ ((10 : ℚ) ^ 30 ≤ 10 ^ 20)
    ∧ _clipf .nan = .nan := by
  refine ⟨rfl, by norm_num, rfl⟩

/-- C1, amended: every value reaching combination or the `to_list`
vectors passes through the clamp, but the clamp alters only non-finite
values: `+inf ↦ 1e20`, `-inf ↦ -1e20`, NaN propagates unchanged, and
finite values — including finite values outside `±1e20` — are kept
unchanged. -/
theorem C1_clamp_only_nonfinite :
    (∀ q : ℚ, _clipf (.finite q) = .finite q)
    ∧ _clipf .posInf = .finite clipBound
    ∧ _clipf .negInf = .finite (-clipBound)
    ∧ _clipf .nan = .nan
    ∧ (∀ v, _clip v = v.map _clipf)
    ∧ (∀ l, instanceToList (some l) = l.map _clipf)
    ∧ (∀ x, cellContrib (some (.scalar x)) = [_clipf x])
    ∧ (∀ xs, cellContrib (some (.vec xs)) = xs.map _clipf) := by
  refine ⟨fun q => rfl, by decide, by decide, rfl, fun v => rfl, fun l => rfl,
    fun x => rfl, fun xs => rfl⟩

/- ———————————————————————— C4 ———————————————————————— -/

/-- C4, counterexample: the vector `[2.0, None]` contains a null element,
but because the float `2.0` precedes it, `Hdf5Sample.put_vector` takes
the half-precision branch and the conversion of `None` raises — the
vector is not re-encoded as byte strings.  Reversing the order
(`[None, 2.0]`) does take the byte-string branch. -/
theorem C4_counterexample :
    Hdf5Sample.put_vector [] "k" (some [.float (.finite 2), .none])
      = .error "float() argument must be a string or a number, not NoneType"
    ∧ coerceVector [.none, .float (.finite 2)]
      = .ok (.hbytes ["", floatStr (.finite 2)])
    ∧ floatStr (.finite 2) = "2.0" := by
  refine ⟨rfl, rfl, ?_⟩
  norm_num [floatStr, decimalDigits]
  rfl

theorem coerceScan_eq_firstCoercible (v : List PyScalar) :
    coerceScan v = (firstCoercible v).map (fun e => isTextOrNone e) := by
  induction v with
  | nil => rfl
  | cons a rest ih =>
      by_cases h1 : isTextOrNone a = true
      · simp [coerceScan, firstCoercible, h1]
      · by_cases h2 : isFloatScalar a = true
        · simp [coerceScan, firstCoercible, h1, h2]
        · simp [coerceScan, firstCoercible, h1, h2, ih]

theorem floatsOf_error {v : List PyScalar} (h : PyScalar.none ∈ v) :
    ∃ msg, floatsOf v = .error msg := by
  induction v with
  | nil => cases h
  | cons a rest ih =>
      cases a with
      | none =>
          exact ⟨"float() argument must be a string or a number, not NoneType",
            rfl⟩
      | str s => exact ⟨"could not convert string to float", rfl⟩
      | bool b =>
          have hm : PyScalar.none ∈ rest := by
            rcases List.mem_cons.mp h with h1 | hm
            · exact absurd h1 (by simp)
            · exact hm
          obtain ⟨msg, hmsg⟩ := ih hm
          exact ⟨msg, by simp only [floatsOf, floatOfScalar, hmsg, except_bind_ok, except_bind_error]⟩
      | int n =>
          have hm : PyScalar.none ∈ rest := by
            rcases List.mem_cons.mp h with h1 | hm
            · exact absurd h1 (by simp)
            · exact hm
          obtain ⟨msg, hmsg⟩ := ih hm
          exact ⟨msg, by simp only [floatsOf, floatOfScalar, hmsg, except_bind_ok, except_bind_error]⟩
      | float x =>
          have hm : PyScalar.none ∈ rest := by
            rcases List.mem_cons.mp h with h1 | hm
            · exact absurd h1 (by simp)
            · exact hm
          obtain ⟨msg, hmsg⟩ := ih hm
          exact ⟨msg, by simp only [floatsOf, floatOfScalar, hmsg, except_bind_ok, except_bind_error]⟩

/-- C4, amended: the whole-vector byte-string re-encoding (null mapped to
the empty string) happens exactly when, scanning elements left to right,
the first element that is text, null, or a real number is text or null;
when a real number precedes the first text/null element, the
half-precision conversion is attempted instead, which raises whenever a
null element is present. -/
theorem C4_bytes_iff_text_first (v : List PyScalar) :
    (∀ e, firstCoercible v = some e → isTextOrNone e = true →
        coerceVector v = .ok (.hbytes (v.map bytesOfScalar))
          ∧ bytesOfScalar .none = "")
    ∧ (∀ x, firstCoercible v = some (.float x) → PyScalar.none ∈ v →
        ∃ msg, coerceVector v = .error msg) := by
  constructor
  · intro e he hte
    refine ⟨?_, rfl⟩
    unfold coerceVector
    rw [coerceScan_eq_firstCoercible, he]
    simp [hte]
  · intro x hx hmem
    obtain ⟨msg, hmsg⟩ := floatsOf_error hmem
    refine ⟨msg, ?_⟩
    unfold coerceVector
    rw [coerceScan_eq_firstCoercible, hx]
    simp [isTextOrNone, hmsg, Except.map]

/-- Witness for `C4_bytes_iff_text_first`: the text-first branch at
`["a", None]` and the float-first branch at `[1.0, None]`. -/
theorem C4_bytes_iff_text_first_witness :
    coerceVector [.str "a", .none] = .ok (.hbytes ["a", ""])
    ∧ ∃ msg, coerceVector [.float (.finite 1), .none] = .error msg := by
  constructor
  · exact ((C4_bytes_iff_text_first [.str "a", .none]).1 (.str "a") rfl rfl).1
  · exact (C4_bytes_iff_text_first [.float (.finite 1), .none]).2
      (.finite 1) rfl (by simp)

/- ———————————————————————— C5 ———————————————————————— -/

/-- C5: with two constraints where the first has the explicit category
`None`, the extraction appends `None` placeholders to the categories
(and user-features) lists but `continue`s before appending to `lazy`, so
`constr_lazy` has one entry instead of two and its single entry belongs
to the second constraint — `constr_lazy` is misaligned with
`constr_names` and the other per-constraint keys. -/
theorem C5_lazy_skips_null_category :
    (extractUserFeaturesConstrs false [("c1", PyScalar.none)] []
        (fun _ => false) [some "c1", some "c2"]).lazy = [false]
    ∧ (extractUserFeaturesConstrs false [("c1", PyScalar.none)] []
        (fun _ => false) [some "c1", some "c2"]).categories
        = [Option.none, some (.str "c2")]
    ∧ ([false] : List Bool).length ≠ 2 := by
  exact ⟨rfl, rfl, by decide⟩

/- ———————————————————————— C2 ———————————————————————— -/

/-- C2, counterexample: a coo matrix of declared shape `(2,2)` whose only
entry sits at `(0,0)` is recovered from Hdf5Sample with the inferred
shape `(1,1)` — the put/get round-trip does not yield an equal sparse
value. -/
theorem C2_counterexample :
    (do
      let st ← Hdf5Sample.put_sparse [] "k"
        (some ⟨[0], [0], ⟨'f', [1], [.float (.finite 1)]⟩, (2, 2)⟩)
      Hdf5Sample.get_sparse (fun x => x) st "k")
      = .ok (some ⟨[0], [0], ⟨'f', [1], [.float (.finite 1)]⟩, (1, 1)⟩)
    ∧ (⟨[0], [0], ⟨'f', [1], [.float (.finite 1)]⟩, (1, 1)⟩ : CooMatrix)
      ≠ ⟨[0], [0], ⟨'f', [1], [.float (.finite 1)]⟩, (2, 2)⟩ := by
  exact ⟨by decide, by decide⟩

theorem floatsOf_map_float (xs : List PyFloat) :
    floatsOf (xs.map .float) = .ok xs := by
  induction xs with
  | nil => rfl
  | cons x rest ih =>
      simp [floatsOf, floatOfScalar, ih, except_bind_ok]

theorem coerceScan_map_bool (bs : List Bool) :
    coerceScan (bs.map .bool) = Option.none := by
  induction bs with
  | nil => rfl
  | cons b rest ih =>
      simpa [coerceScan, isTextOrNone, isFloatScalar] using ih

theorem coerceScan_map_int (ns : List ℤ) :
    coerceScan (ns.map .int) = Option.none := by
  induction ns with
  | nil => rfl
  | cons n rest ih =>
      simpa [coerceScan, isTextOrNone, isFloatScalar] using ih

theorem rawEncode_map_bool (bs : List Bool) :
    rawEncode (bs.map .bool) = bs.map .bool := by
  have h : (bs.map PyScalar.bool).any isIntScalar = false := by
    induction bs with
    | nil => rfl
    | cons b rest ih => simpa [isIntScalar] using ih
  simp [rawEncode, h]

theorem rawEncode_map_int (ns : List ℤ) :
    rawEncode (ns.map .int) = ns.map .int := by
  by_cases h : (ns.map PyScalar.int).any isIntScalar = true
  · simp only [rawEncode, h, if_true, List.map_map]
    exact List.map_congr_left fun a _ => rfl
  · simp [rawEncode, h]

theorem put_vector_some (st : Hdf5Sample.Store) (k : String)
    (l : List PyScalar) :
    Hdf5Sample.put_vector st k (some l)
      = (coerceVector l).map (aupdate st k) := rfl

theorem coerceVector_bytes {v : List PyScalar}
    (h : coerceScan v = some true) :
    coerceVector v = .ok (.hbytes (v.map bytesOfScalar)) := by
  unfold coerceVector
  rw [h]

theorem coerceVector_f2 {v : List PyScalar}
    (h : coerceScan v = some false) :
    coerceVector v = (floatsOf v).map HObj.hf2 := by
  unfold coerceVector
  rw [h]

theorem coerceVector_raw {v : List PyScalar}
    (h : coerceScan v = Option.none) :
    coerceVector v = .ok (.hraw (rawEncode v)) := by
  unfold coerceVector
  rw [h]

theorem intIndexArray_kind (ns : List ℕ) :
    (Hdf5Sample.intIndexArray ns).kind = 'i' := rfl

theorem natsOf_map_natCast (ns : List ℕ) :
    Hdf5Sample.natsOf (ns.map fun n => PyScalar.int (Nat.cast n))
      = .ok ns := by
  induction ns with
  | nil => rfl
  | cons n rest ih =>
      have h : ¬ ((Nat.cast n : ℤ) < 0) :=
        Int.not_lt.mpr (Int.natCast_nonneg _)
      simp only [List.map_cons, Hdf5Sample.natsOf]
      rw [if_neg h, ih, except_bind_ok, Int.toNat_natCast]

/-- C2, amended: put-then-get on a fresh store yields an equal value —
exactly on MemorySample for all four kinds, and on Hdf5Sample exactly
for scalars and arrays, up to the half-precision rounding `f2` for the
float elements of a vector, and up to the null↔empty-string sentinel
mapping for text vectors; bool and int vectors round-trip exactly.  A
sparse matrix, however, is recovered on Hdf5Sample with its shape
re-inferred as `(max row index + 1, max col index + 1)` (requiring at
least one stored entry), not with its original shape. -/
theorem C2_roundtrip_up_to_declared_loss :
    (∀ (k : String) (v : PyScalar), v ≠ .none →
      MemorySample.get_scalar (MemorySample.put_scalar [] k v) k
        = some (.scalar v))
    ∧ (∀ (k : String) (l : List PyScalar),
      MemorySample.get_vector (MemorySample.put_vector [] k (some l)) k
        = some (.vector l))
    ∧ (∀ (k : String) (a : NpArray), supportedKind a.kind = true →
      (MemorySample.put_array [] k (some a)).map
          (fun st => MemorySample.get_array st k)
        = .ok (some (.array a)))
    ∧ (∀ (k : String) (m : CooMatrix), supportedKind m.data.kind = true →
      (MemorySample.put_sparse [] k (some m)).map
          (fun st => MemorySample.get_sparse st k)
        = .ok (some (.sparse m)))
    ∧ (∀ (k : String) (v : PyScalar), v ≠ .none →
      Hdf5Sample.get_scalar (Hdf5Sample.put_scalar [] k v) k = .ok (some v))
    ∧ (∀ (f2 : PyFloat → PyFloat) (k : String) (xs : List PyFloat),
      (do
        let st ← Hdf5Sample.put_vector [] k (some (xs.map .float))
        Hdf5Sample.get_vector f2 st k)
        = .ok (some (xs.map fun x => .float (f2 x))))
    ∧ (∀ (f2 : PyFloat → PyFloat) (k : String) (os : List (Option String)),
      (do
        let st ← Hdf5Sample.put_vector [] k (some (os.map textEncode))
        Hdf5Sample.get_vector f2 st k)
        = .ok (some (os.map textDecode)))
    ∧ (∀ (f2 : PyFloat → PyFloat) (k : String) (bs : List Bool),
      (do
        let st ← Hdf5Sample.put_vector [] k (some (bs.map .bool))
        Hdf5Sample.get_vector f2 st k)
        = .ok (some (bs.map .bool)))
    ∧ (∀ (f2 : PyFloat → PyFloat) (k : String) (ns : List ℤ),
      (do
        let st ← Hdf5Sample.put_vector [] k (some (ns.map .int))
        Hdf5Sample.get_vector f2 st k)
        = .ok (some (ns.map .int)))
    ∧ (∀ (f2 : PyFloat → PyFloat) (k : String) (a : NpArray),
      supportedKind a.kind = true →
      (do
        let st ← Hdf5Sample.put_array [] k (some a)
        Hdf5Sample.get_array f2 st k)
        = .ok (some a))
    ∧ (∀ (f2 : PyFloat → PyFloat) (k : String) (m : CooMatrix),
      supportedKind m.data.kind = true → m.row ≠ [] → m.col ≠ [] →
      (do
        let st ← Hdf5Sample.put_sparse [] k (some m)
        Hdf5Sample.get_sparse f2 st k)
        = .ok (some ⟨m.row, m.col, m.data,
            (m.row.max?.getD 0 + 1, m.col.max?.getD 0 + 1)⟩)) := by
  refine ⟨?_, ?_, ?_, ?_, ?_, ?_, ?_, ?_, ?_, ?_, ?_⟩
  · intro k v hv
    cases v <;>
      simp [MemorySample.put_scalar, MemorySample.get_scalar,
        MemorySample._get, alookup_aupdate_self] at hv ⊢
  · intro k l
    simp [MemorySample.put_vector, MemorySample.get_vector,
      MemorySample._get, alookup_aupdate_self]
  · intro k a hk
    simp [MemorySample.put_array, MemorySample.get_array, hk,
      MemorySample._get, alookup_aupdate_self, Except.map]
  · intro k m hk
    simp [MemorySample.put_sparse, MemorySample.get_sparse, hk,
      MemorySample._get, alookup_aupdate_self, Except.map]
  · intro k v hv
    cases v <;>
      simp [Hdf5Sample.put_scalar, Hdf5Sample.get_scalar,
        alookup_aupdate_self] at hv ⊢
  · intro f2 k xs
    cases xs with
    | nil =>
        rw [put_vector_some]
        simp only [List.map_nil]
        rw [show coerceVector [] = .ok (.hraw []) from rfl]
        simp [Except.map, except_bind_ok, Hdf5Sample.get_vector,
          alookup_aupdate_self]
    | cons x rest =>
        rw [put_vector_some,
          coerceVector_f2 (show coerceScan ((x :: rest).map PyScalar.float)
            = some false from rfl),
          floatsOf_map_float]
        simp [Except.map, except_bind_ok, Hdf5Sample.get_vector,
          alookup_aupdate_self]
  · intro f2 k os
    cases os with
    | nil =>
        rw [put_vector_some]
        simp only [List.map_nil]
        rw [show coerceVector [] = .ok (.hraw []) from rfl]
        simp [Except.map, except_bind_ok, Hdf5Sample.get_vector,
          alookup_aupdate_self]
    | cons o rest =>
        rw [put_vector_some,
          coerceVector_bytes (show coerceScan ((o :: rest).map textEncode)
            = some true from by cases o <;> rfl)]
        simp only [Except.map, except_bind_ok, Hdf5Sample.get_vector,
          alookup_aupdate_self, List.map_map]
        refine congrArg (fun z => Except.ok (some z)) ?_
        refine List.map_congr_left fun a _ => ?_
        cases a <;> rfl
  · intro f2 k bs
    have hput : Hdf5Sample.put_vector [] k (some (bs.map .bool))
        = .ok (aupdate [] k (.hraw (bs.map .bool))) := by
      show (coerceVector _).map (aupdate [] k) = _
      rw [coerceVector_raw (coerceScan_map_bool bs), rawEncode_map_bool]
      rfl
    rw [hput, except_bind_ok]
    simp [Hdf5Sample.get_vector, alookup_aupdate_self]
  · intro f2 k ns
    have hput : Hdf5Sample.put_vector [] k (some (ns.map .int))
        = .ok (aupdate [] k (.hraw (ns.map .int))) := by
      show (coerceVector _).map (aupdate [] k) = _
      rw [coerceVector_raw (coerceScan_map_int ns), rawEncode_map_int]
      rfl
    rw [hput, except_bind_ok]
    simp [Hdf5Sample.get_vector, alookup_aupdate_self]
  · intro f2 k a hk
    simp [Hdf5Sample.put_array, hk, except_bind_ok,
      Hdf5Sample.get_array, alookup_aupdate_self]
  · intro f2 k m hk hrow hcol
    have hne_rd : k ++ "_row" ≠ k ++ "_data" :=
      append_right_ne k (by decide)
    have hne_rc : k ++ "_row" ≠ k ++ "_col" :=
      append_right_ne k (by decide)
    have hne_cd : k ++ "_col" ≠ k ++ "_data" :=
      append_right_ne k (by decide)
    have hi : supportedKind 'i' = true := rfl
    have hput : Hdf5Sample.put_sparse [] k (some m)
        = .ok (aupdate (aupdate (aupdate []
            (k ++ "_row") (.harr (Hdf5Sample.intIndexArray m.row)))
            (k ++ "_col") (.harr (Hdf5Sample.intIndexArray m.col)))
            (k ++ "_data") (.harr m.data)) := by
      simp [Hdf5Sample.put_sparse, hk, Hdf5Sample.put_array, hi,
        intIndexArray_kind, except_bind_ok]
    rw [hput, except_bind_ok]
    obtain ⟨mr, hmr⟩ : ∃ mr, m.row.max? = some mr := by
      cases hmax : m.row.max? with
      | none => exact absurd (List.max?_eq_none_iff.mp hmax) hrow
      | some mr => exact ⟨mr, rfl⟩
    obtain ⟨mc, hmc⟩ : ∃ mc, m.col.max? = some mc := by
      cases hmax : m.col.max? with
      | none => exact absurd (List.max?_eq_none_iff.mp hmax) hcol
      | some mc => exact ⟨mc, rfl⟩
    simp [Hdf5Sample.get_sparse, Hdf5Sample.get_array,
      alookup_aupdate_self, alookup_aupdate_ne _ _ hne_rd,
      alookup_aupdate_ne _ _ hne_rc, alookup_aupdate_ne _ _ hne_cd,
      except_bind_ok, Hdf5Sample.natsOfArray, Hdf5Sample.intIndexArray,
      natsOf_map_natCast, hmr, hmc]

/-- Witness for `C2_roundtrip_up_to_declared_loss` at concrete values of
every kind. -/
theorem C2_roundtrip_up_to_declared_loss_witness :
    MemorySample.get_scalar (MemorySample.put_scalar [] "a" (.int 3)) "a"
      = some (.scalar (.int 3))
    ∧ MemorySample.get_vector
        (MemorySample.put_vector [] "b" (some [.str "x"])) "b"
      = some (.vector [.str "x"])
    ∧ (do
        let st ← Hdf5Sample.put_vector [] "c"
          (some [PyScalar.float .posInf])
        Hdf5Sample.get_vector (fun _ => PyFloat.posInf) st "c")
      = .ok (some [PyScalar.float .posInf])
    ∧ (do
        let st ← Hdf5Sample.put_vector [] "d"
          (some [PyScalar.str "s", PyScalar.none])
        Hdf5Sample.get_vector (fun x => x) st "d")
      = .ok (some [PyScalar.str "s", PyScalar.none])
    ∧ (do
        let st ← Hdf5Sample.put_sparse [] "e"
          (some ⟨[1], [0], ⟨'f', [1], [.float (.finite 5)]⟩, (2, 1)⟩)
        Hdf5Sample.get_sparse (fun x => x) st "e")
      = .ok (some ⟨[1], [0], ⟨'f', [1], [.float (.finite 5)]⟩, (2, 1)⟩) := by
  refine ⟨?_, ?_, ?_, ?_, ?_⟩
  · exact C2_roundtrip_up_to_declared_loss.1 "a" (.int 3) (by simp)
  · exact C2_roundtrip_up_to_declared_loss.2.1 "b" [.str "x"]
  · exact (C2_roundtrip_up_to_declared_loss.2.2.2.2.2.1
      (fun _ => PyFloat.posInf) "c" [PyFloat.posInf]).trans (by rfl)
  · exact (C2_roundtrip_up_to_declared_loss.2.2.2.2.2.2.1
      (fun x => x) "d" [some "s", Option.none]).trans (by decide)
  · exact (C2_roundtrip_up_to_declared_loss.2.2.2.2.2.2.2.2.2.2
      (fun x => x) "e" ⟨[1], [0], ⟨'f', [1], [.float (.finite 5)]⟩, (2, 1)⟩
      (by decide) (by simp) (by simp)).trans (by decide)

/- ———————————————————————— C3 ———————————————————————— -/

/-- C3: reading a key that was never written returns the absence marker
`None` — not an error — through all four getters, on both stores.  (For
the sparse getter on HDF5 the relevant absent dataset is `k_row`.) -/
theorem C3_absent_key_returns_none (mst : MemorySample.Store)
    (hst : Hdf5Sample.Store) (f2 : PyFloat → PyFloat) (k : String)
    (hm : alookup mst k = Option.none)
    (hh : alookup hst k = Option.none)
    (hrow : alookup hst (k ++ "_row") = Option.none) :
    MemorySample.get_scalar mst k = Option.none
    ∧ MemorySample.get_vector mst k = Option.none
    ∧ MemorySample.get_array mst k = Option.none
    ∧ MemorySample.get_sparse mst k = Option.none
    ∧ Hdf5Sample.get_scalar hst k = .ok Option.none
    ∧ Hdf5Sample.get_vector f2 hst k = .ok Option.none
    ∧ Hdf5Sample.get_array f2 hst k = .ok Option.none
    ∧ Hdf5Sample.get_sparse f2 hst k = .ok Option.none := by
  refine ⟨hm, hm, hm, hm, ?_, ?_, ?_, ?_⟩
  · simp [Hdf5Sample.get_scalar, hh]
  · simp [Hdf5Sample.get_vector, hh]
  · simp [Hdf5Sample.get_array, hh]
  · simp [Hdf5Sample.get_sparse, Hdf5Sample.get_array, hrow, except_bind_ok]

/-- Witness for `C3_absent_key_returns_none` on empty stores. -/
theorem C3_absent_key_returns_none_witness :
    alookup ([] : MemorySample.Store) "x" = Option.none
    ∧ MemorySample.get_scalar [] "x" = Option.none
    ∧ Hdf5Sample.get_sparse (fun x => x) [] "x" = .ok Option.none := by
  refine ⟨rfl, ?_, ?_⟩
  · exact (C3_absent_key_returns_none [] [] (fun x => x) "x" rfl rfl rfl).1
  · exact (C3_absent_key_returns_none [] [] (fun x => x) "x"
      rfl rfl rfl).2.2.2.2.2.2.2

/- ———————————————————————— C9 ———————————————————————— -/

theorem inferFill_ok {V : List (Option (List PackElem))}
    (h : ∃ v ∈ V, ∃ l, v = some l ∧ l ≠ []) :
    ∃ fill, inferFill V = .ok fill := by
  induction V with
  | nil =>
      obtain ⟨v, hv, _⟩ := h
      cases hv
  | cons o rest ih =>
      cases o with
      | none =>
          obtain ⟨v, hv, l, hvl, hl⟩ := h
          rcases List.mem_cons.mp hv with rfl | hv'
          · cases hvl
          · simpa [inferFill] using ih ⟨v, hv', l, hvl, hl⟩
      | some l0 =>
          cases l0 with
          | nil =>
              obtain ⟨v, hv, l, hvl, hl⟩ := h
              rcases List.mem_cons.mp hv with rfl | hv'
              · cases hvl
                exact absurd rfl hl
              · simpa [inferFill] using ih ⟨v, hv', l, hvl, hl⟩
          | cons e es => exact ⟨fillOf e, rfl⟩

theorem crop_pad (m : ℕ) (fill : PackElem)
    (V : List (Option (List PackElem))) :
    crop (V.map (padRow m fill)) (packLengths V) = V := by
  induction V with
  | nil => rfl
  | cons o rest ih =>
      cases o with
      | none =>
          simpa [crop, packLengths, padRow] using ih
      | some v =>
          simp only [crop, packLengths, padRow, List.map_cons,
            List.zipWith_cons_cons] at ih ⊢
          refine ?_
          have h1 : ¬ ((v.length : ℤ) < 0) :=
            Int.not_lt.mpr (Int.natCast_nonneg _)
          simp only [h1, if_false, Int.toNat_natCast, List.take_left]
          exact congrArg (some v :: ·) ih

/-- C9: for every vector-list with at least one non-null, non-empty
entry, `crop (pack V) = V`, null entries being recorded with length
sentinel −1 and recovered as null; in particular the scenario
`[[1,2,3], None, [4,5]]` packs to rows `[[1,2,3],[0,0,0],[4,5,0]]` with
lengths `[3,-1,2]` and crops back to the original. -/
theorem C9_pack_crop_roundtrip (V : List (Option (List PackElem)))
    (h : ∃ v ∈ V, ∃ l, v = some l ∧ l ≠ []) :
    (∃ rows lengths, pack V = .ok (rows, lengths) ∧ crop rows lengths = V)
    ∧ pack [some [.int 1, .int 2, .int 3], Option.none, some [.int 4, .int 5]]
      = .ok ([[.int 1, .int 2, .int 3], [.int 0, .int 0, .int 0],
              [.int 4, .int 5, .int 0]], [3, -1, 2])
    ∧ crop [[.int 1, .int 2, .int 3], [.int 0, .int 0, .int 0],
            [.int 4, .int 5, .int 0]] [3, -1, 2]
      = [some [.int 1, .int 2, .int 3], Option.none,
         some [.int 4, .int 5]] := by
  refine ⟨?_, by decide, by decide⟩
  obtain ⟨fill, hfill⟩ := inferFill_ok h
  refine ⟨V.map (padRow (packMaxLen V) fill), packLengths V, ?_,
    crop_pad _ _ V⟩
  simp [pack, hfill, except_bind_ok]

/-- Witness for `C9_pack_crop_roundtrip` at the Scenario B vector-list. -/
theorem C9_pack_crop_roundtrip_witness :
    (∃ v ∈ [some [PackElem.int 1, .int 2, .int 3], Option.none,
            some [.int 4, .int 5]], ∃ l, v = some l ∧ l ≠ [])
    ∧ (∃ rows lengths,
        pack [some [PackElem.int 1, .int 2, .int 3], Option.none,
              some [.int 4, .int 5]] = .ok (rows, lengths)
        ∧ crop rows lengths
          = [some [PackElem.int 1, .int 2, .int 3], Option.none,
             some [.int 4, .int 5]]) := by
  have h : ∃ v ∈ [some [PackElem.int 1, .int 2, .int 3], Option.none,
      some [.int 4, .int 5]], ∃ l, v = some l ∧ l ≠ [] :=
    ⟨some [PackElem.int 1, .int 2, .int 3], by simp,
     [PackElem.int 1, .int 2, .int 3], rfl, by simp⟩
  exact ⟨h, (C9_pack_crop_roundtrip _ h).1⟩

/- ———————————————————————— C6 ———————————————————————— -/

theorem getElem_mapIdx_local {α β : Type} (l : List α) (f : ℕ → α → β)
    (i : ℕ) (h : i < l.length) (h2 : i < (l.mapIdx f).length) :
    (l.mapIdx f)[i] = f i l[i] := by
  have hg := List.get_mapIdx l f i h
  simp only [List.get_eq_getElem] at hg
  exact hg

theorem specCombineRows_length (g : String → Option Series)
    (attrs : List String) (n : ℕ) :
    (specCombineRows g attrs n).length = n := by
  simp [specCombineRows]

theorem specCombineRows_cons_absent (g : String → Option Series)
    {a : String} (rest : List String) (n : ℕ) (hga : g a = Option.none) :
    specCombineRows g (a :: rest) n = specCombineRows g rest n := by
  unfold specCombineRows
  refine List.map_congr_left fun i _ => ?_
  simp [List.flatMap_cons, hga]

theorem specCombineRows_getElem (g : String → Option Series)
    (attrs : List String) (n i : ℕ) (_hn : i < n)
    (h2 : i < (specCombineRows g attrs n).length) :
    (specCombineRows g attrs n)[i]
      = attrs.flatMap fun a =>
          match g a with
          | Option.none => []
          | some s => cellContrib (s[i]?.getD Option.none) := by
  simp [specCombineRows]

theorem combineStep_empty (series : Series) :
    combineStep [] series = some (series.map cellContrib) := by
  unfold combineStep
  simp only [List.isEmpty_nil, if_true]
  have hdrop : series.drop (series.map
      fun _ => ([] : List PyFloat)).length = [] := by
    simp
  rw [hdrop]
  simp only [List.all_nil, if_true]
  refine congrArg some ?_
  refine List.ext_getElem (by simp) ?_
  intro i h1 h2
  have hi : i < series.length := by simpa using h2
  rw [getElem_mapIdx_local _ _ _ (by simpa using h1)]
  simp [List.getElem?_eq_getElem hi]

theorem combineStep_sized {c : List (List PyFloat)} {series : Series}
    (h : c.length = series.length) :
    combineStep c series
      = some (List.zipWith (fun row s => row ++ cellContrib s) c series) := by
  cases c with
  | nil =>
      cases series with
      | nil => rfl
      | cons s ss => simp at h
  | cons r rs =>
      unfold combineStep
      simp only [List.isEmpty_cons, Bool.false_eq_true, if_false]
      have hdrop : series.drop (r :: rs).length = [] :=
        List.drop_eq_nil_of_le (le_of_eq h.symm)
      rw [hdrop]
      simp only [List.all_nil, if_true]
      refine congrArg some ?_
      have h2 : rs.length + 1 = series.length := by simpa using h
      refine List.ext_getElem (by simp [List.length_zipWith, ← h2]) ?_
      intro i h1 h2
      have hc : i < (r :: rs).length := by simpa using h1
      have hi : i < series.length := by omega
      rw [getElem_mapIdx_local _ _ _ hc]
      rw [List.getElem_zipWith]
      simp [List.getElem?_eq_getElem hi]

theorem combine_go (g : String → Option Series) (n : ℕ) :
    ∀ (attrs : List String),
      (∀ a ∈ attrs, ∀ s, g a = some s → s.length = n) →
      ∀ (c : List (List PyFloat)), c.length = n →
      attrs.foldl (combineF g) (some c)
        = some (List.zipWith (· ++ ·) c (specCombineRows g attrs n)) := by
  intro attrs
  induction attrs with
  | nil =>
      intro _ c hc
      simp only [List.foldl_nil]
      refine congrArg some ?_
      refine (List.ext_getElem (by simp [List.length_zipWith,
        specCombineRows, hc]) ?_).symm
      intro i h1 h2
      have hi : i < n := by
        simpa [List.length_zipWith, specCombineRows, hc] using h1
      rw [List.getElem_zipWith]
      simp [specCombineRows]
  | cons a rest ih =>
      intro hlen c hc
      rw [List.foldl_cons]
      cases hga : g a with
      | none =>
          have hF : combineF g (some c) a = some c := by
            simp [combineF, hga]
          rw [hF, ih (fun a' ha' => hlen a' (List.mem_cons_of_mem _ ha'))
            c hc, specCombineRows_cons_absent g rest n hga]
      | some s =>
          have hs : s.length = n :=
            hlen a (List.mem_cons_self a rest) s hga
          have hF : combineF g (some c) a = combineStep c s := by
            simp [combineF, hga]
          rw [hF, combineStep_sized (by rw [hc, hs])]
          rw [ih (fun a' ha' => hlen a' (List.mem_cons_of_mem _ ha')) _
            (by simp [List.length_zipWith, hc, hs])]
          refine congrArg some ?_
          refine List.ext_getElem (by simp [List.length_zipWith,
            specCombineRows, hc, hs]) ?_
          intro i h1 h2
          have hi : i < n := by
            simpa [List.length_zipWith, specCombineRows, hc, hs] using h1
          have his : i < s.length := by omega
          rw [List.getElem_zipWith, List.getElem_zipWith,
            List.getElem_zipWith]
          rw [specCombineRows_getElem g rest n i hi,
            specCombineRows_getElem g (a :: rest) n i hi]
          simp [List.flatMap_cons, hga, List.getElem?_eq_getElem his,
            List.append_assoc]

theorem combine_spec (g : String → Option Series) (n : ℕ) :
    ∀ (attrs : List String),
      (∃ a ∈ attrs, g a ≠ Option.none) →
      (∀ a ∈ attrs, ∀ s, g a = some s → s.length = n) →
      _combine g attrs = some (specCombineRows g attrs n) := by
  intro attrs
  induction attrs with
  | nil =>
      intro hpres _
      obtain ⟨a, ha, _⟩ := hpres
      cases ha
  | cons a rest ih =>
      intro hpres hlen
      unfold _combine
      rw [List.foldl_cons]
      cases hga : g a with
      | none =>
          have hF : combineF g (some []) a = some [] := by
            simp [combineF, hga]
          have hpres2 : ∃ a2 ∈ rest, g a2 ≠ Option.none := by
            obtain ⟨a2, ha2, hne⟩ := hpres
            rcases List.mem_cons.mp ha2 with rfl | hmem
            · exact absurd hga hne
            · exact ⟨a2, hmem, hne⟩
          have hrest := ih hpres2
            (fun a2 ha2 => hlen a2 (List.mem_cons_of_mem _ ha2))
          rw [hF, show List.foldl (combineF g) (some []) rest
            = _combine g rest from rfl, hrest,
            specCombineRows_cons_absent g rest n hga]
      | some s =>
          have hs : s.length = n :=
            hlen a (List.mem_cons_self a rest) s hga
          have hF : combineF g (some []) a = combineStep [] s := by
            simp [combineF, hga]
          rw [hF, combineStep_empty,
            combine_go g n rest
              (fun a2 ha2 => hlen a2 (List.mem_cons_of_mem _ ha2))
              (s.map cellContrib) (by simp [hs])]
          refine congrArg some ?_
          refine List.ext_getElem (by simp [List.length_zipWith,
            specCombineRows, hs]) ?_
          intro i h1 h2
          have hi : i < n := by
            simpa [List.length_zipWith, specCombineRows, hs] using h1
          have his : i < s.length := by omega
          rw [List.getElem_zipWith,
            specCombineRows_getElem g rest n i hi,
            specCombineRows_getElem g (a :: rest) n i hi]
          simp [List.flatMap_cons, hga, List.getElem?_eq_getElem his]

/-- C6: when every present series holds one entry per entity for the
same entity count `n` (and at least one key is present), `_combine`
returns exactly `n` rows and row `i` is the concatenation, in the given
key order, of the contribution of entry `i` of each present key — an
absent key and a null entry contribute nothing. -/
theorem C6_combine_alignment (g : String → Option Series)
    (attrs : List String) (n : ℕ)
    (hpres : ∃ a ∈ attrs, g a ≠ Option.none)
    (hlen : ∀ a ∈ attrs, ∀ s, g a = some s → s.length = n) :
    _combine g attrs = some (specCombineRows g attrs n)
    ∧ (specCombineRows g attrs n).length = n :=
  ⟨combine_spec g n attrs hpres hlen, specCombineRows_length g attrs n⟩

/-- Witness for `C6_combine_alignment`: two keys, the first present with
a scalar entry for entity 0 and a null entry for entity 1, the second
absent. -/
theorem C6_combine_alignment_witness :
    (∃ a ∈ (["u", "v"] : List String),
      (fun a => if a = "u"
        then some [some (PyVal.scalar (.finite 1)), Option.none]
        else Option.none) a ≠ Option.none)
    ∧ _combine
        (fun a => if a = "u"
          then some [some (PyVal.scalar (.finite 1)), Option.none]
          else Option.none) ["u", "v"]
      = some [[PyFloat.finite 1], []] := by
  have hpres : ∃ a ∈ (["u", "v"] : List String),
      (fun a => if a = "u"
        then some [some (PyVal.scalar (.finite 1)), Option.none]
        else Option.none) a ≠ Option.none :=
    ⟨"u", by simp, by simp⟩
  have hlen : ∀ a ∈ (["u", "v"] : List String), ∀ s,
      (fun a => if a = "u"
        then some [some (PyVal.scalar (.finite 1)), Option.none]
        else Option.none) a = some s → s.length = 2 := by
    intro a ha s hs
    rcases (by simpa using ha : a = "u" ∨ a = "v") with rfl | rfl
    · simp at hs
      rw [← hs]
      rfl
    · simp at hs
  refine ⟨hpres, ?_⟩
  exact (C6_combine_alignment _ ["u", "v"] 2 hpres hlen).1.trans (by decide)

/- ———————————————————————— C7 ———————————————————————— -/

/-- C7: a constraint whose name is non-null and absent from the category
dictionary gets its own name as category, and a `false` lazy entry when
the instance declares no static lazy constraints. -/
theorem C7_default_category_is_name (catDict : List (String × PyScalar))
    (featDict : List (String × List ℚ)) (isL : String → Bool)
    (acc : ConstrAcc) (s : String) (hcat : alookup catDict s = Option.none) :
    constrStep false catDict featDict isL acc (some s)
      = { user_features := acc.user_features ++ [alookup featDict s]
          categories := acc.categories ++ [some (.str s)]
          lazy := acc.lazy ++ [false] } := by
  simp [constrStep, hcat]

/-- Witness for `C7_default_category_is_name` at a concrete constraint. -/
theorem C7_default_category_is_name_witness :
    alookup ([] : List (String × PyScalar)) "c" = Option.none
    ∧ constrStep false [] [] (fun _ => false) ⟨[], [], []⟩ (some "c")
      = { user_features := [Option.none]
          categories := [some (.str "c")]
          lazy := [false] } := by
  refine ⟨rfl, ?_⟩
  exact (C7_default_category_is_name [] [] (fun _ => false) ⟨[], [], []⟩ "c"
    rfl).trans rfl

/- ———————————————————————— C8 ———————————————————————— -/

/-- C8: with objective coefficient `0.0` and sensitivity bounds
`[-1e30, 1e30]`, the Alvarez builder returns (no arithmetic error) and
both log-gap features are `0.0`: the bounds are clamped to `±1e20` and
the zero coefficient sign short-circuits the gap test; every produced
value is a (finite) rational.  The statement holds for every value of
the logarithm function, which is never invoked. -/
theorem C8_zero_coeff_huge_bounds (log : ℚ → ℚ) :
    alvarezFeatures log [0] Option.none (some [-(10 ^ 30)]) (some [10 ^ 30])
      = .ok [[0, 0, 0, 1, -1, 0, 0]] := by
  rfl

/- ———————————————————————— C10 ———————————————————————— -/

/-- C10: on both stores and for every value kind, a `put` of `None` is a
no-op: it returns without error, stores nothing, and leaves the store —
hence every previously stored value — unchanged and retrievable. -/
theorem C10_null_put_is_noop (mst : MemorySample.Store)
    (hst : Hdf5Sample.Store) (f2 : PyFloat → PyFloat) (k : String) :
    MemorySample.put_scalar mst k .none = mst
    ∧ MemorySample.put_vector mst k Option.none = mst
    ∧ MemorySample.put_array mst k Option.none = .ok mst
    ∧ MemorySample.put_sparse mst k Option.none = .ok mst
    ∧ Hdf5Sample.put_scalar hst k .none = hst
    ∧ Hdf5Sample.put_vector hst k Option.none = .ok hst
    ∧ Hdf5Sample.put_array hst k Option.none = .ok hst
    ∧ Hdf5Sample.put_sparse hst k Option.none = .ok hst
    ∧ MemorySample.get_scalar (MemorySample.put_scalar mst k .none) k
      = MemorySample.get_scalar mst k
    ∧ MemorySample.get_vector (MemorySample.put_vector mst k Option.none) k
      = MemorySample.get_vector mst k
    ∧ Hdf5Sample.get_vector f2 (Hdf5Sample.put_scalar hst k .none) k
      = Hdf5Sample.get_vector f2 hst k := by
  exact ⟨rfl, rfl, rfl, rfl, rfl, rfl, rfl, rfl, rfl, rfl, rfl⟩

end MIPLearn
